import Mathlib

/-!
Verification of `fully_connected_networks.py` (layer primitives, softmax loss,
TwoLayerNet, FullyConnectedNet, dropout, Adam).

Embedding conventions:
* A PyTorch tensor of shape `(N, M)` is embedded as a total function
  `Tensor2 K = ℕ → ℕ → K` over a linearly ordered field `K`; only the
  entries with indices below the explicit dimension arguments are ever read
  by the operations, mirroring the fact that the Python code obtains `N`,
  `D`, ... from `x.shape`.  Inputs of shape `(N, d_1, ..., d_k)` are
  embedded in their flattened `(N, D)` view, since every code path under
  verification first reshapes to that view (and the reshape is the identity
  on the flattened view).  The theorems instantiate `K := ℝ`.
* `torch.mm`, transposition, broadcast bias addition, column sums and
  elementwise maxima become the explicit `Finset.range` sums / pointwise
  operations below.  The transcendental kernels `torch.exp`, `torch.log`
  and `torch.sqrt` of the tensor substrate are passed as explicit function
  arguments and instantiated with `Real.exp`, `Real.log`, `Real.sqrt` in
  every theorem.
* Boolean tensors such as `(x > 0)` multiplied into float tensors become
  the indicator `indR`.
-/

namespace FCN

variable {K : Type*} [LinearOrderedField K]

/-- A dense 2-D tensor over `K`, embedded as a total function on indices. -/
abbrev Tensor2 (K : Type*) : Type _ := ℕ → ℕ → K

/-- A dense 1-D tensor over `K`. -/
abbrev Vec (K : Type*) : Type _ := ℕ → K

/-- Matrix product with explicit inner dimension `K'`: `torch.mm(A, B)`
where `A : (n, K')` and `B : (K', m)`. -/
def mmul (K' : ℕ) (A B : Tensor2 K) : Tensor2 K :=
  fun i j => ∑ k ∈ Finset.range K', A i k * B k j

/-- Tensor transposition `A.t()`. -/
def transposeT (A : Tensor2 K) : Tensor2 K := fun i j => A j i

/-- Broadcast bias addition `A + b` for `A : (N, M)` and `b : (M,)`. -/
def addRowVec (A : Tensor2 K) (b : Vec K) : Tensor2 K := fun i j => A i j + b j

/-- Column sum `torch.sum(A, dim=0)` over the `N` rows of `A`. -/
def colSum (N : ℕ) (A : Tensor2 K) : Vec K := fun j => ∑ i ∈ Finset.range N, A i j

/-- Indicator of a decidable proposition in `K` (a Boolean tensor entry
cast to float, as in `dout * (x > 0)`). -/
def indR (K : Type*) [LinearOrderedField K] (P : Prop) [Decidable P] : K :=
  if P then 1 else 0

/-- Elementwise `torch.max(A, torch.zeros_like(A))`. -/
def reluT (A : Tensor2 K) : Tensor2 K := fun i j => max (A i j) 0

/-- Elementwise `dout * (Z > 0)`: upstream gradient masked by the
positivity of the cached pre-activation. -/
def gtMask (dout Z : Tensor2 K) : Tensor2 K :=
  fun i j => dout i j * indR K (0 < Z i j)

/-- `torch.sum(A * A)` over an `(m, n)` tensor. -/
def sumsq (m n : ℕ) (A : Tensor2 K) : K :=
  ∑ i ∈ Finset.range m, ∑ j ∈ Finset.range n, A i j * A i j

/-- `Linear.forward(x, w, b)` (source lines 12-33): `out = x.reshape(N,D).mm(w) + b`,
`cache = (x, w, b)`.  `D` is the flattened per-example dimension read off
from `x.shape`. -/
def Linear.forward (D : ℕ) (x w : Tensor2 K) (b : Vec K) :
    Tensor2 K × (Tensor2 K × Tensor2 K × Vec K) :=
  (addRowVec (mmul D x w) b, (x, w, b))

/-- `Linear.backward(dout, cache)` (source lines 35-59):
`dx = dout.mm(w.t())` (reshaped back), `dw = x.reshape(N,D).t().mm(dout)`,
`db = torch.sum(dout, dim=0)`.  `N` and `M` are the batch size and the
output dimension read off from the shapes. -/
def Linear.backward (N M : ℕ) (dout : Tensor2 K)
    (cache : Tensor2 K × Tensor2 K × Vec K) :
    Tensor2 K × Tensor2 K × Vec K :=
  let x := cache.1
  let w := cache.2.1
  (mmul M dout (transposeT w), mmul N (transposeT x) dout, colSum N dout)

/-- `ReLU.forward(x)` (source lines 64-79): `out = torch.max(x, zeros)`, `cache = x`. -/
def ReLU.forward (x : Tensor2 K) : Tensor2 K × Tensor2 K := (reluT x, x)

/-- `ReLU.backward(dout, cache)` (source lines 81-95): `dx = dout * (cache > 0)`. -/
def ReLU.backward (dout cache : Tensor2 K) : Tensor2 K := gtMask dout cache

/-- `Linear_ReLU.forward(x, w, b)` (source lines 100-121): computes the
linear output, applies `max(·, 0)`, and caches `(x, w, b, out_linear)`. -/
def Linear_ReLU.forward (D : ℕ) (x w : Tensor2 K) (b : Vec K) :
    Tensor2 K × (Tensor2 K × Tensor2 K × Vec K × Tensor2 K) :=
  let out_linear := addRowVec (mmul D x w) b
  (reluT out_linear, (x, w, b, out_linear))

/-- `Linear_ReLU.backward(dout, cache)` (source lines 123-141):
`d_relu = dout * (out_linear > 0)`, then the affine backward algebra on
`d_relu`. -/
def Linear_ReLU.backward (N M : ℕ) (dout : Tensor2 K)
    (cache : Tensor2 K × Tensor2 K × Vec K × Tensor2 K) :
    Tensor2 K × Tensor2 K × Vec K :=
  let x := cache.1
  let w := cache.2.1
  let out_linear := cache.2.2.2
  let d_relu := gtMask dout out_linear
  (mmul M d_relu (transposeT w), mmul N (transposeT x) d_relu, colSum N d_relu)

/-- `softmax_loss(x, y)` (source lines 144-168) for scores `x : (N, C)` and
labels `y : (N,)`: `f = exp(x) / sum(exp(x), axis=1)` row-wise, `loss =
-sum(log(f[arange(N), y])) / N`, `dx = f` with `1` subtracted at `(i, y[i])`
for `i < N` and then divided by `N`.  The tensor substrate's `torch.exp`
and `torch.log` are the arguments `kexp`, `klog`. -/
def softmax_loss (kexp klog : K → K) (N C : ℕ) (x : Tensor2 K) (y : ℕ → ℕ) :
    K × Tensor2 K :=
  let f : Tensor2 K := fun i j => kexp (x i j) / ∑ k ∈ Finset.range C, kexp (x i k)
  let loss := -(∑ i ∈ Finset.range N, klog (f i (y i))) / N
  let dx : Tensor2 K := fun i j => (f i j - indR K (i < N ∧ j = y i)) / N
  (loss, dx)

/-- Parameter set of `TwoLayerNet.__init__` (source lines 185-208): shapes
`W1 : (D, H)`, `b1 : (H,)`, `W2 : (H, C)`, `b2 : (C,)` plus the L2 strength
`reg`.  The random initial values are left symbolic. -/
structure TwoLayerNetP (K : Type*) where
  D : ℕ
  H : ℕ
  C : ℕ
  W1 : Tensor2 K
  b1 : Vec K
  W2 : Tensor2 K
  b2 : Vec K
  reg : K

/-- The gradient dictionary of `TwoLayerNet.loss`, keyed like `self.params`. -/
structure TwoGrads (K : Type*) where
  W1 : Tensor2 K
  b1 : Vec K
  W2 : Tensor2 K
  b2 : Vec K

/-- The `scores` tensor of `TwoLayerNet.loss` (source lines 252-257):
`Linear_ReLU` then `Linear`, then a row-wise softmax
`exp(linear_out2) / sum(exp(linear_out2), axis=1)`. -/
def TwoLayerNet.scores (kexp : K → K) (net : TwoLayerNetP K) (X : Tensor2 K) :
    Tensor2 K :=
  let c1 := Linear_ReLU.forward net.D X net.W1 net.b1
  let c2 := Linear.forward net.H c1.1 net.W2 net.b2
  fun i j => kexp (c2.1 i j) / ∑ k ∈ Finset.range net.C, kexp (c2.1 i k)

/-- Training branch of `TwoLayerNet.loss` (source lines 264-274): softmax
loss on `linear_out2`, plus `reg * (sum(W1*W1) + sum(W2*W2))`; gradients
are exactly the backward outputs of the two layers (the code adds no
regularization term to any gradient). -/
def TwoLayerNet.lossTrain (kexp klog : K → K) (net : TwoLayerNetP K)
    (X : Tensor2 K) (y : ℕ → ℕ) (N : ℕ) : K × TwoGrads K :=
  let c1 := Linear_ReLU.forward net.D X net.W1 net.b1
  let c2 := Linear.forward net.H c1.1 net.W2 net.b2
  let sm := softmax_loss kexp klog N net.C c2.1 y
  let loss := sm.1 + net.reg * (sumsq net.D net.H net.W1 + sumsq net.H net.C net.W2)
  let back2 := Linear.backward N net.C sm.2 c2.2
  let back1 := Linear_ReLU.backward N net.H back2.1 c1.2
  (loss, ⟨back1.2.1, back1.2.2, back2.2.1, back2.2.2⟩)

/-- `TwoLayerNet.loss(X, y)` (source lines 228-274): returns the softmax
`scores` tensor when `y is None`, else `(loss, grads)`. -/
def TwoLayerNet.loss (kexp klog : K → K) (net : TwoLayerNetP K) (X : Tensor2 K)
    (y : Option (ℕ → ℕ)) (N : ℕ) : Tensor2 K ⊕ (K × TwoGrads K) :=
  match y with
  | none => Sum.inl (TwoLayerNet.scores kexp net X)
  | some yy => Sum.inr (TwoLayerNet.lossTrain kexp klog net X yy N)

/-- State of a `FullyConnectedNet` (source lines 292-338): `L = num_layers`,
`dims 0` the (flattened) input dimension, `dims i` the width
`hidden_dims[i-1]` of hidden layer `i` for `1 ≤ i ≤ L-1`, `dims L` the
number of classes; `W i : (dims (i-1), dims i)` and `b i : (dims i,)` are
the parameters `params['Wi']`, `params['bi']` for `1 ≤ i ≤ L`; `reg` the
L2 strength.  The dropout-free configuration (`dropout = 0`, hence
`self.use_dropout = False`) is embedded, so every `if self.use_dropout`
branch of `loss` collapses. -/
structure FCNet (K : Type*) where
  L : ℕ
  dims : ℕ → ℕ
  W : ℕ → Tensor2 K
  b : ℕ → Vec K
  reg : K

/-- Forward chain of `FullyConnectedNet.loss` (source lines 380-385):
`out[0] = X` and `out[i+1] = Linear_ReLU.forward(out[i], W(i+1), b(i+1)).out`
(used for `i + 1 ≤ L - 1`). -/
def fcOut (net : FCNet K) (X : Tensor2 K) : ℕ → Tensor2 K
  | 0 => X
  | i + 1 =>
      (Linear_ReLU.forward (net.dims i) (fcOut net X i) (net.W (i + 1))
        (net.b (i + 1))).1

/-- The cache `cache[i]` produced by layer `i`-s `Linear_ReLU.forward`
(source line 385), for `1 ≤ i ≤ L - 1`. -/
def fcCache (net : FCNet K) (X : Tensor2 K) (i : ℕ) :
    Tensor2 K × Tensor2 K × Vec K × Tensor2 K :=
  (Linear_ReLU.forward (net.dims (i - 1)) (fcOut net X (i - 1)) (net.W i)
    (net.b i)).2

/-- The class scores of `FullyConnectedNet.loss` (source line 388): the
final plain affine layer applied to `out[L-1]`. -/
def fcScores (net : FCNet K) (X : Tensor2 K) : Tensor2 K :=
  (Linear.forward (net.dims (net.L - 1)) (fcOut net X (net.L - 1))
    (net.W net.L) (net.b net.L)).1

/-- The cache `cache[L]` of the final affine layer (source line 388). -/
def fcCacheL (net : FCNet K) (X : Tensor2 K) :
    Tensor2 K × Tensor2 K × Vec K :=
  (Linear.forward (net.dims (net.L - 1)) (fcOut net X (net.L - 1))
    (net.W net.L) (net.b net.L)).2

/-- The upstream gradient `ds` of `FullyConnectedNet.loss` (source line 398):
the `dx` output of `softmax_loss(scores, y)`. -/
def fcDs (kexp klog : K → K) (net : FCNet K) (X : Tensor2 K) (y : ℕ → ℕ)
    (N : ℕ) : Tensor2 K :=
  (softmax_loss kexp klog N (net.dims net.L) (fcScores net X) y).2

/-- The backward chain `dout` of `FullyConnectedNet.loss` (source lines
401-411): `fcBack k = dout[L - k]`.  `fcBack 0` is the `dx` of the final
affine layer's backward (line 401); `fcBack (k+1) = dout[L-1-k]` is the
`dx` of layer `L-1-k`-s `Linear_ReLU.backward` fed with `dout[L-k]`
(lines 406 and 411). -/
def fcBack (kexp klog : K → K) (net : FCNet K) (X : Tensor2 K) (y : ℕ → ℕ)
    (N : ℕ) : ℕ → Tensor2 K
  | 0 =>
      (Linear.backward N (net.dims net.L) (fcDs kexp klog net X y N)
        (fcCacheL net X)).1
  | k + 1 =>
      (Linear_ReLU.backward N (net.dims (net.L - 1 - k))
        (fcBack kexp klog net X y N k) (fcCache net X (net.L - 1 - k))).1

/-- The raw backpropagated weight gradient of layer `i` (the second output
of the layer's backward call, before any regularization line runs): source
line 401 for `i = L`, lines 406 and 411 for `1 ≤ i ≤ L - 1` (which are fed
with `dout[i+1] = fcBack (L - i - 1)`). -/
def fcRawGW (kexp klog : K → K) (net : FCNet K) (X : Tensor2 K) (y : ℕ → ℕ)
    (N : ℕ) (i : ℕ) : Tensor2 K :=
  if i = net.L then
    (Linear.backward N (net.dims net.L) (fcDs kexp klog net X y N)
      (fcCacheL net X)).2.1
  else
    (Linear_ReLU.backward N (net.dims i)
      (fcBack kexp klog net X y N (net.L - i - 1)) (fcCache net X i)).2.1

/-- The raw backpropagated bias gradient of layer `i` (third output of the
layer's backward call). -/
def fcRawGb (kexp klog : K → K) (net : FCNet K) (X : Tensor2 K) (y : ℕ → ℕ)
    (N : ℕ) (i : ℕ) : Vec K :=
  if i = net.L then
    (Linear.backward N (net.dims net.L) (fcDs kexp klog net X y N)
      (fcCacheL net X)).2.2
  else
    (Linear_ReLU.backward N (net.dims i)
      (fcBack kexp klog net X y N (net.L - i - 1)) (fcCache net X i)).2.2

/-- The returned weight gradients `grads['Wi']` of `FullyConnectedNet.loss`:
for `i = L` (source line 402) and for `i = L-1 .. 2` (source line 407) the
code runs `grads['Wi'] = grads['Wi'] + reg * grads['Wi']`; for `i = 1`
(source line 411) no regularization line runs. -/
def fcGradW (kexp klog : K → K) (net : FCNet K) (X : Tensor2 K) (y : ℕ → ℕ)
    (N : ℕ) (i : ℕ) : Tensor2 K :=
  if i = 1 then fcRawGW kexp klog net X y N 1
  else fun r c =>
    fcRawGW kexp klog net X y N i r c + net.reg * fcRawGW kexp klog net X y N i r c

/-- The returned bias gradients `grads['bi']` of `FullyConnectedNet.loss`:
exactly the backward outputs, with no regularization line anywhere. -/
def fcGradb (kexp klog : K → K) (net : FCNet K) (X : Tensor2 K) (y : ℕ → ℕ)
    (N : ℕ) (i : ℕ) : Vec K :=
  fcRawGb kexp klog net X y N i

/-- The returned loss of `FullyConnectedNet.loss` in train mode: the softmax
loss (line 398), plus `0.5 * reg * sum(W(i+1) * W(i+1))` accumulated for the
loop indices `i = L-1 .. 2` (line 408), plus the `W1` term (line 412).  The
loop contributes the terms of `W(L) .. W(3)`; no line adds a `W2` term. -/
def fcLossVal (kexp klog : K → K) (net : FCNet K) (X : Tensor2 K) (y : ℕ → ℕ)
    (N : ℕ) : K :=
  (softmax_loss kexp klog N (net.dims net.L) (fcScores net X) y).1 +
    (∑ i ∈ Finset.Ico 2 net.L,
      0.5 * net.reg * sumsq (net.dims i) (net.dims (i + 1)) (net.W (i + 1))) +
    0.5 * net.reg * sumsq (net.dims 0) (net.dims 1) (net.W 1)

/-- `FullyConnectedNet.loss(X, y)` (source lines 367-413, dropout-free
configuration): test mode (`y is None`) returns the raw affine `scores`
with no softmax applied; train mode returns `(loss, grads)` with the weight
gradient map keyed by layer index `1 .. L`. -/
def FullyConnectedNet.loss (kexp klog : K → K) (net : FCNet K) (X : Tensor2 K)
    (y : Option (ℕ → ℕ)) (N : ℕ) :
    Tensor2 K ⊕ (K × (ℕ → Tensor2 K) × (ℕ → Vec K)) :=
  match y with
  | none => Sum.inl (fcScores net X)
  | some yy =>
      Sum.inr (fcLossVal kexp klog net X yy N, fcGradW kexp klog net X yy N,
        fcGradb kexp klog net X yy N)

/-- Shape bookkeeping of `FullyConnectedNet.__init__` (source lines 317-329):
the ordered parameter entries `(name, shape)` created by the constructor,
with Python list indexing `hidden_dims[...]` embedded as `List.get?` (an
out-of-range access, which raises `IndexError` in Python, yields `none`).
The loop `for i in range(1, num_layers-1)` creates `W(i+1), b(i+1)` from
`hidden_dims[i-1], hidden_dims[i]`; then `W1, b1` from `hidden_dims[0]`;
then `W(num_layers), b(num_layers)` from `hidden_dims[num_layers-2]`. -/
def fcInit (hidden_dims : List ℕ) (input_dim num_classes : ℕ) :
    Option (List (String × List ℕ)) :=
  let num_layers := 1 + hidden_dims.length
  match (List.range (num_layers - 2)).mapM (fun k =>
      (hidden_dims.get? k).bind (fun d0 =>
        (hidden_dims.get? (k + 1)).map (fun d1 =>
          [("W" ++ toString (k + 2), [d0, d1]),
           ("b" ++ toString (k + 2), [d1])]))) with
  | none => none
  | some ms =>
      (hidden_dims.get? 0).bind (fun h0 =>
        (hidden_dims.get? (num_layers - 2)).map (fun hl =>
          ms.flatten ++ [("W1", [input_dim, h0]), ("b1", [h0]),
            ("W" ++ toString num_layers, [hl, num_classes]),
            ("b" ++ toString num_layers, [num_classes])]))

/-- Dimensions of the concrete fully connected net: input `1`, one hidden
layer of width `1`, `2` classes (`L = 2`). -/
def cDimsFC : ℕ → ℕ := fun i => if i = 2 then 2 else 1

/-- Weights of the concrete fully connected net: `W1 = [[1]]`,
`W2 = [[1, 0]]`. -/
def cWFC (K : Type*) [LinearOrderedField K] : ℕ → Tensor2 K :=
  fun i => if i = 2 then (fun r c => indR K (r = 0 ∧ c = 0)) else fun _ _ => 1

/-- Biases of the concrete fully connected net: all zero. -/
def cbFC (K : Type*) [LinearOrderedField K] : ℕ → Vec K := fun _ _ => 0

/-- Concrete two-layer `FullyConnectedNet` instance with `reg = 1`. -/
def cnetFC (K : Type*) [LinearOrderedField K] : FCNet K :=
  ⟨2, cDimsFC, cWFC K, cbFC K, 1⟩

/-- Concrete two-layer net used as failing input: `D = H = 1`, `C = 2`,
`W1 = [[1]]`, `b1 = 0`, `W2 = [[1, 0]]`, `b2 = 0`, `reg = 1`. -/
def cnetTwo (K : Type*) [LinearOrderedField K] : TwoLayerNetP K :=
  ⟨1, 1, 2, fun _ _ => 1, fun _ => 0, fun _ j => indR K (j = 0), fun _ => 0, 1⟩

/-- Concrete all-zero input batch (one example). -/
def cXzero (K : Type*) [LinearOrderedField K] : Tensor2 K := fun _ _ => 0

/-- Concrete label vector: class `0` for every example. -/
def cyZero : ℕ → ℕ := fun _ => 0

/-- The `dropout_param` dictionary (source lines 603-632): drop probability
`p`, mode string, and optional deterministic seed. -/
structure DropoutParam (K : Type*) where
  p : K
  mode : String
  seed : Option ℕ

/-- Effect of source lines 631-632 on the process-wide generator state
(embedded as a `ℕ`): `if 'seed' in dropout_param: torch.manual_seed(seed)`
replaces the state by the seed, otherwise the incoming state `g` is kept. -/
def seededState (dp : DropoutParam K) (g : ℕ) : ℕ :=
  match dp.seed with
  | some s => s
  | none => g

/-- `Dropout.forward(x, dropout_param)` (source lines 602-645).  The
process-wide random generator is threaded explicitly: `g` is the incoming
state and `rand` is the generator kernel behind `torch.rand_like` (state ↦
(uniform sample tensor, next state)); it is consumed only in train mode.
After the optional seeding, `p = 1 - p`; in train mode
`mask = (random < p) / p` and `out = mask * x`; in test mode `out = x`;
for any other mode string the function falls through both branches and
returns with `out` still `None`.  Returns `(out, (dropout_param, mask),
final generator state)`. -/
def Dropout.forward {ι : Type*} (rand : ℕ → (ι → K) × ℕ) (x : ι → K)
    (dp : DropoutParam K) (g : ℕ) :
    Option (ι → K) × (DropoutParam K × Option (ι → K)) × ℕ :=
  let g1 := seededState dp g
  let pk := 1 - dp.p
  if dp.mode = "train" then
    let mask : ι → K := fun i => (if (rand g1).1 i < pk then 1 else 0) / pk
    (some (fun i => mask i * x i), (dp, some mask), (rand g1).2)
  else if dp.mode = "test" then
    (some x, (dp, none), g1)
  else
    (none, (dp, none), g1)

/-- `Dropout.backward(dout, cache)` (source lines 647-663): in train mode
`dx = dout * mask` (the cached mask; a `None` mask, which would raise in
Python, is embedded as a `none` result), in test mode `dx = dout`, and for
any other mode `dx` remains `None`. -/
def Dropout.backward {ι : Type*} (dout : ι → K)
    (cache : DropoutParam K × Option (ι → K)) : Option (ι → K) :=
  if cache.1.mode = "train" then cache.2.map (fun m => fun i => dout i * m i)
  else if cache.1.mode = "test" then some dout
  else none

/-- A concrete deterministic generator kernel: every sample entry is `0`
and the state is incremented. -/
def cRand (K : Type*) [LinearOrderedField K] : ℕ → (ℕ → K) × ℕ :=
  fun g => (fun _ => 0, g + 1)

/-- A concrete all-ones 1-D tensor. -/
def cxOne (K : Type*) [LinearOrderedField K] : ℕ → K := fun _ => 1

/-- The per-parameter Adam configuration dictionary (source lines 555-576):
every key is optional, `config.setdefault` fills the listed defaults. -/
structure AdamConfig (K : Type*) (ι : Type*) where
  learning_rate : Option K
  beta1 : Option K
  beta2 : Option K
  epsilon : Option K
  m : Option (ι → K)
  v : Option (ι → K)
  t : Option ℕ

/-- `adam(w, dw, config)` (source lines 555-597): after the `setdefault`
calls (`learning_rate = 1e-3`, `beta1 = 0.9`, `beta2 = 0.999`,
`epsilon = 1e-8`, `m = v = 0`, `t = 0`), the code sets `t = t + 1`,
`m = beta1 * m + (1 - beta1) * dw`, `mh = m / (1 - beta1 ** t)`,
`v = beta2 * v + (1 - beta2) * (dw ** 2)`, `vh = v / (1 - beta2 ** t)` and
`next_w = w - learning_rate * (mh / (sqrt(vh) + epsilon))`, storing `t`,
`m`, `v` back into the config.  `ksqrt` is the substrate's `torch.sqrt`. -/
def adam {ι : Type*} (ksqrt : K → K) (w dw : ι → K) (config : AdamConfig K ι) :
    (ι → K) × AdamConfig K ι :=
  let learning_rate := config.learning_rate.getD 1e-3
  let beta1 := config.beta1.getD 0.9
  let beta2 := config.beta2.getD 0.999
  let epsilon := config.epsilon.getD 1e-8
  let m := config.m.getD (fun _ => 0)
  let v := config.v.getD (fun _ => 0)
  let t := config.t.getD 0
  let t1 := t + 1
  let mnew : ι → K := fun i => beta1 * m i + (1 - beta1) * dw i
  let mh : ι → K := fun i => mnew i / (1 - beta1 ^ t1)
  let vnew : ι → K := fun i => beta2 * v i + (1 - beta2) * dw i ^ 2
  let vh : ι → K := fun i => vnew i / (1 - beta2 ^ t1)
  let next_w : ι → K := fun i => w i - learning_rate * (mh i / (ksqrt (vh i) + epsilon))
  (next_w,
    ⟨some learning_rate, some beta1, some beta2, some epsilon, some mnew,
      some vnew, some t1⟩)

/-- Claim C4 (confirmed): for every input `x`, weights `w`, bias `b` and
upstream gradient `dout` (with dimensions `N`, `D`, `M`),
`Linear_ReLU.forward` returns the same output as `ReLU.forward` applied to
the output of `Linear.forward`, and `Linear_ReLU.backward` on the fused
cache returns the same `(dx, dw, db)` as `ReLU.backward` followed by
`Linear.backward` with the caches of the separate calls. -/
theorem claim4_fused_linear_relu_equiv (D N M : ℕ) (x w : Tensor2 ℝ) (b : Vec ℝ)
    (dout : Tensor2 ℝ) :
    (Linear_ReLU.forward D x w b).1 = (ReLU.forward (Linear.forward D x w b).1).1 ∧
    Linear_ReLU.backward N M dout (Linear_ReLU.forward D x w b).2 =
      Linear.backward N M
        (ReLU.backward dout (ReLU.forward (Linear.forward D x w b).1).2)
        (Linear.forward D x w b).2 := by
  constructor
  · rfl
  · rfl

/-- Claim C5 (confirmed): for scores `x : (N, C)` and labels `y` with
`y[i] < C`, `softmax_loss` returns `loss = -(1/N) * sum_i log(softmax(x)[i, y i])`,
the loss is non-negative, and on the rows `i < N` the returned `dx` equals
the row-wise softmax with `1` subtracted at `(i, y i)` and divided by `N`. -/
theorem claim5_softmax_loss_spec (N C : ℕ) (x : Tensor2 ℝ) (y : ℕ → ℕ)
    (hy : ∀ i, i < N → y i < C) :
    (softmax_loss Real.exp Real.log N C x y).1 =
      -((1 : ℝ) / N) * ∑ i ∈ Finset.range N,
        Real.log (Real.exp (x i (y i)) / ∑ k ∈ Finset.range C, Real.exp (x i k)) ∧
    0 ≤ (softmax_loss Real.exp Real.log N C x y).1 ∧
    (∀ i j, i < N →
      (softmax_loss Real.exp Real.log N C x y).2 i j =
        (Real.exp (x i j) / (∑ k ∈ Finset.range C, Real.exp (x i k)) -
          indR ℝ (j = y i)) / N) := by
  have hS : ∀ i ∈ Finset.range N,
      Real.log (Real.exp (x i (y i)) / ∑ k ∈ Finset.range C, Real.exp (x i k)) ≤ 0 := by
    intro i hi
    have hiN : i < N := Finset.mem_range.mp hi
    have hC : 0 < C := lt_of_le_of_lt (Nat.zero_le _) (hy i hiN)
    have hden : 0 < ∑ k ∈ Finset.range C, Real.exp (x i k) :=
      Finset.sum_pos (fun k _ => Real.exp_pos _)
        (Finset.nonempty_range_iff.mpr hC.ne')
    exact Real.log_nonpos
      (div_nonneg (Real.exp_pos _).le hden.le)
      ((div_le_one hden).mpr
        (Finset.single_le_sum (fun k _ => (Real.exp_pos (x i k)).le)
          (Finset.mem_range.mpr (hy i hiN))))
  refine ⟨?_, ?_, ?_⟩
  · show -(∑ i ∈ Finset.range N, _) / (N : ℝ) = _
    rw [neg_div, neg_mul, one_div, inv_mul_eq_div]
  · show 0 ≤ -(∑ i ∈ Finset.range N, _) / (N : ℝ)
    exact div_nonneg (neg_nonneg.mpr (Finset.sum_nonpos hS)) (Nat.cast_nonneg N)
  · intro i j hi
    show (_ - indR ℝ (i < N ∧ j = y i)) / (N : ℝ) = _
    simp [indR, hi]

/-- Witness for claim C5 at `N = C = 1`, `x = 0`, `y = 0`. -/
theorem claim5_softmax_loss_spec_witness :
    (∀ i, i < 1 → (fun _ : ℕ => 0) i < 1) ∧
    ((softmax_loss Real.exp Real.log 1 1 (fun _ _ => (0 : ℝ)) (fun _ => 0)).1 =
      -((1 : ℝ) / ((1 : ℕ) : ℝ)) * ∑ _i ∈ Finset.range 1,
        Real.log (Real.exp ((0 : ℝ)) / ∑ _k ∈ Finset.range 1, Real.exp ((0 : ℝ))) ∧
    0 ≤ (softmax_loss Real.exp Real.log 1 1 (fun _ _ => (0 : ℝ)) (fun _ => 0)).1 ∧
    (∀ i j, i < 1 →
      (softmax_loss Real.exp Real.log 1 1 (fun _ _ => (0 : ℝ)) (fun _ => 0)).2 i j =
        (Real.exp ((0 : ℝ)) / (∑ _k ∈ Finset.range 1, Real.exp ((0 : ℝ))) -
          indR ℝ (j = 0)) / ((1 : ℕ) : ℝ))) :=
  ⟨fun _ _ => Nat.zero_lt_one,
    claim5_softmax_loss_spec 1 1 (fun _ _ => (0 : ℝ)) (fun _ => 0) (fun _ _ => Nat.zero_lt_one)⟩

/-- Claim C2 (code bug): with `reg = 1` and the concrete net `cnetTwo` on the
zero input, the returned `dW1` entry is `0` while the claimed value
`dW1_backprop + 2 * reg * W1` is `0 + 2`; the returned gradient carries no
regularization contribution at all (even though the returned loss includes
the `reg * (sum(W1*W1) + sum(W2*W2))` term). -/
theorem claim2_missing_reg_in_gradients :
    (TwoLayerNet.lossTrain Real.exp Real.log (cnetTwo ℝ) (cXzero ℝ) cyZero 1).2.W1 0 0 = 0 ∧
    2 * (cnetTwo ℝ).reg * (cnetTwo ℝ).W1 0 0 = 2 ∧
    (TwoLayerNet.lossTrain Real.exp Real.log (cnetTwo ℝ) (cXzero ℝ) cyZero 1).2.W1 0 0 ≠
      (TwoLayerNet.lossTrain Real.exp Real.log (cnetTwo ℝ) (cXzero ℝ) cyZero 1).2.W1 0 0 +
        2 * (cnetTwo ℝ).reg * (cnetTwo ℝ).W1 0 0 := by
  have h0 : (TwoLayerNet.lossTrain Real.exp Real.log (cnetTwo ℝ) (cXzero ℝ) cyZero 1).2.W1 0 0 = 0 := by
    simp [TwoLayerNet.lossTrain, Linear_ReLU.backward, Linear_ReLU.forward,
      Linear.forward, Linear.backward, mmul, transposeT, cXzero, cnetTwo]
  have h2 : 2 * (cnetTwo ℝ).reg * (cnetTwo ℝ).W1 0 0 = 2 := by
    norm_num [cnetTwo]
  refine ⟨h0, h2, ?_⟩
  rw [h0, h2]
  norm_num

/-- Counterexample to claim C1: on the concrete two-layer `cnetFC`
(`reg = 1`, `W1 = [[1]]`, `W2 = [[1, 0]]`) with the zero input, the
returned training loss does not contain a `0.5 * reg * sum(W2*W2)` term
(it equals softmax + 0.5 instead of softmax + 1), and the returned `dW1`
does not contain an added `reg * W1` term (the code never adds a
regularization line for `W1`). -/
theorem claim1_counterexample :
    fcLossVal Real.exp Real.log (cnetFC ℝ) (cXzero ℝ) cyZero 1 ≠
      (softmax_loss Real.exp Real.log 1 ((cnetFC ℝ).dims (cnetFC ℝ).L)
          (fcScores (cnetFC ℝ) (cXzero ℝ)) cyZero).1 +
        (0.5 * (cnetFC ℝ).reg *
            sumsq ((cnetFC ℝ).dims 0) ((cnetFC ℝ).dims 1) ((cnetFC ℝ).W 1) +
          0.5 * (cnetFC ℝ).reg *
            sumsq ((cnetFC ℝ).dims 1) ((cnetFC ℝ).dims 2) ((cnetFC ℝ).W 2)) ∧
    fcGradW Real.exp Real.log (cnetFC ℝ) (cXzero ℝ) cyZero 1 1 0 0 ≠
      fcRawGW Real.exp Real.log (cnetFC ℝ) (cXzero ℝ) cyZero 1 1 0 0 +
        (cnetFC ℝ).reg * (cnetFC ℝ).W 1 0 0 := by
  have e1 : sumsq ((cnetFC ℝ).dims 0) ((cnetFC ℝ).dims 1) ((cnetFC ℝ).W 1) = 1 := by
    simp [cnetFC, cDimsFC, cWFC, sumsq]
  have e2 : sumsq ((cnetFC ℝ).dims 1) ((cnetFC ℝ).dims 2) ((cnetFC ℝ).W 2) = 1 := by
    simp [cnetFC, cDimsFC, cWFC, sumsq, indR, Finset.sum_range_succ]
  constructor
  · intro h
    rw [fcLossVal, e1, e2] at h
    have hIco : Finset.Ico 2 (cnetFC ℝ).L = (∅ : Finset ℕ) := by
      simp [cnetFC]
    rw [hIco] at h
    have hreg : (cnetFC ℝ).reg = 1 := rfl
    rw [hreg] at h
    simp only [Finset.sum_empty] at h
    norm_num at h
  · intro h
    rw [fcGradW, if_pos rfl] at h
    have hc : (cnetFC ℝ).reg * (cnetFC ℝ).W 1 0 0 = 1 := by
      norm_num [cnetFC, cWFC]
    rw [hc] at h
    exact absurd (self_eq_add_right.mp h) one_ne_zero

/-- Claim C1 as amended (the statement the code satisfies): for every
dropout-free `FullyConnectedNet` with `L = m + 2` layers, the training loss
contains the per-layer terms `0.5 * reg * sum(Wi * Wi)` exactly for `i = 1`
and `3 ≤ i ≤ L` (the `W2` term is omitted), the returned `dW1` is the raw
backpropagated gradient with no regularization contribution, every other
weight gradient `dWi` (`i = j + 2`) is the raw backpropagated gradient
plus `reg` times itself (not `reg * Wi`), and the bias gradients carry no
regularization contribution. -/
theorem claim1_amended_regularization (m : ℕ) (dims : ℕ → ℕ)
    (W : ℕ → Tensor2 ℝ) (b : ℕ → Vec ℝ) (reg : ℝ) (X : Tensor2 ℝ)
    (y : ℕ → ℕ) (N : ℕ) :
    fcLossVal Real.exp Real.log ⟨m + 2, dims, W, b, reg⟩ X y N =
      (softmax_loss Real.exp Real.log N (dims (m + 2))
          (fcScores ⟨m + 2, dims, W, b, reg⟩ X) y).1 +
        0.5 * reg * sumsq (dims 0) (dims 1) (W 1) +
        ∑ j ∈ Finset.Ico 3 (m + 3),
          0.5 * reg * sumsq (dims (j - 1)) (dims j) (W j) ∧
    fcGradW Real.exp Real.log ⟨m + 2, dims, W, b, reg⟩ X y N 1 =
      fcRawGW Real.exp Real.log ⟨m + 2, dims, W, b, reg⟩ X y N 1 ∧
    (∀ j, fcGradW Real.exp Real.log ⟨m + 2, dims, W, b, reg⟩ X y N (j + 2) =
      fun r c =>
        fcRawGW Real.exp Real.log ⟨m + 2, dims, W, b, reg⟩ X y N (j + 2) r c +
          reg * fcRawGW Real.exp Real.log ⟨m + 2, dims, W, b, reg⟩ X y N (j + 2) r c) ∧
    (∀ i, fcGradb Real.exp Real.log ⟨m + 2, dims, W, b, reg⟩ X y N i =
      fcRawGb Real.exp Real.log ⟨m + 2, dims, W, b, reg⟩ X y N i) := by
  refine ⟨?_, ?_, ?_, ?_⟩
  · have hsum : (∑ i ∈ Finset.Ico 2 (m + 2),
        (0.5 : ℝ) * reg * sumsq (dims i) (dims (i + 1)) (W (i + 1))) =
        ∑ j ∈ Finset.Ico 3 (m + 3),
          0.5 * reg * sumsq (dims (j - 1)) (dims j) (W j) := by
      rw [Finset.sum_Ico_eq_sum_range, Finset.sum_Ico_eq_sum_range]
      refine Finset.sum_congr (by norm_num) (fun k _ => ?_)
      have h1 : 3 + k - 1 = 2 + k := by omega
      have h2 : 2 + k + 1 = 3 + k := by omega
      rw [h1, h2]
    rw [fcLossVal]
    rw [hsum]
    ring
  · rw [fcGradW, if_pos rfl]
  · intro j
    rw [fcGradW, if_neg (by omega)]
  · intro i
    rfl

/-- Claim C3 (code bug): constructing `FullyConnectedNet` with
`hidden_dims = []` does not succeed: the constructor unconditionally
evaluates `hidden_dims[0]` (and `hidden_dims[num_layers - 2]`), which is
out of range for the empty list, so no parameter set is produced. -/
theorem claim3_empty_hidden_dims_fails : fcInit [] 4 3 = none := rfl

/-- Claim C10 (confirmed): `TwoLayerNet.loss(X, y=None)` returns the
row-wise softmax of the second affine layer's output: every entry of the
returned tensor is non-negative and every row sums to `1` (for
`num_classes = c + 1`); by contrast `FullyConnectedNet.loss` in test mode
returns the final affine output `fcScores` unnormalized. -/
theorem claim10_test_mode_softmax (D H c : ℕ) (W1 : Tensor2 ℝ) (b1 : Vec ℝ)
    (W2 : Tensor2 ℝ) (b2 : Vec ℝ) (reg : ℝ) (X : Tensor2 ℝ) (N : ℕ)
    (fnet : FCNet ℝ) (fX : Tensor2 ℝ) (fN : ℕ) :
    TwoLayerNet.loss Real.exp Real.log ⟨D, H, c + 1, W1, b1, W2, b2, reg⟩ X none N =
      Sum.inl (TwoLayerNet.scores Real.exp ⟨D, H, c + 1, W1, b1, W2, b2, reg⟩ X) ∧
    (∀ i j, 0 ≤ TwoLayerNet.scores Real.exp ⟨D, H, c + 1, W1, b1, W2, b2, reg⟩ X i j) ∧
    (∀ i, ∑ j ∈ Finset.range (c + 1),
      TwoLayerNet.scores Real.exp ⟨D, H, c + 1, W1, b1, W2, b2, reg⟩ X i j = 1) ∧
    FullyConnectedNet.loss Real.exp Real.log fnet fX none fN =
      Sum.inl (fcScores fnet fX) := by
  refine ⟨rfl, ?_, ?_, rfl⟩
  · intro i j
    exact div_nonneg (Real.exp_pos _).le
      (Finset.sum_nonneg fun k _ => (Real.exp_pos _).le)
  · intro i
    simp only [TwoLayerNet.scores]
    rw [← Finset.sum_div]
    exact div_self (ne_of_gt
      (Finset.sum_pos (fun k _ => Real.exp_pos _)
        (Finset.nonempty_range_iff.mpr (Nat.succ_ne_zero c))))

/-- Claim C6 (confirmed): two train-mode `Dropout.forward` calls with the
same seed in `dropout_param` and inputs of identical shape produce identical
dropout masks, regardless of the incoming generator states and of the input
values: the seed is applied to the generator before sampling, so the
sampled tensor — and hence the mask — depends only on the seed. -/
theorem claim6_dropout_seed_determinism {ι : Type*} (rand : ℕ → (ι → ℝ) × ℕ)
    (x1 x2 : ι → ℝ) (p : ℝ) (s g1 g2 : ℕ) :
    (Dropout.forward rand x1 ⟨p, "train", some s⟩ g1).2.1.2 =
      (Dropout.forward rand x2 ⟨p, "train", some s⟩ g2).2.1.2 := rfl

/-- Claim C7 (confirmed): `Dropout.forward` with `p = 0` returns the input
unchanged in train mode (given that the uniform samples lie below `1`) and
in test mode; test mode for any `p` returns the input unchanged with no
mask stored and without consuming the generator (the returned state is the
seeded-or-incoming state, untouched by `rand`); and `Dropout.backward` in
test mode returns `dout` unchanged. -/
theorem claim7_dropout_identity {ι : Type*} (rand : ℕ → (ι → ℝ) × ℕ)
    (x dout : ι → ℝ) (p : ℝ) (sd : Option ℕ) (g : ℕ) (msk : Option (ι → ℝ))
    (hr : ∀ gs i, (rand gs).1 i < 1) :
    (Dropout.forward rand x ⟨0, "train", sd⟩ g).1 = some x ∧
    Dropout.forward rand x ⟨p, "test", sd⟩ g =
      (some x, (⟨p, "test", sd⟩, none), seededState ⟨p, "test", sd⟩ g) ∧
    Dropout.backward dout ((⟨p, "test", sd⟩ : DropoutParam ℝ), msk) = some dout := by
  refine ⟨?_, ?_, ?_⟩
  · have hstep : (Dropout.forward rand x ⟨(0 : ℝ), "train", sd⟩ g).1 =
        some (fun i =>
          (if (rand (seededState ⟨(0 : ℝ), "train", sd⟩ g)).1 i < 1 - 0 then (1 : ℝ)
            else 0) / (1 - 0) * x i) := rfl
    rw [hstep]
    refine congrArg some (funext fun i => ?_)
    rw [sub_zero, if_pos (hr _ i), div_one, one_mul]
  · rfl
  · rfl

/-- Witness for claim C7 with the concrete generator `cRand` (all samples
`0`) on the all-ones input. -/
theorem claim7_dropout_identity_witness :
    (∀ gs i, ((cRand ℝ) gs).1 i < 1) ∧
    ((Dropout.forward (cRand ℝ) (cxOne ℝ) ⟨0, "train", none⟩ 0).1 = some (cxOne ℝ) ∧
    Dropout.forward (cRand ℝ) (cxOne ℝ) ⟨(1 : ℝ)/2, "test", none⟩ 0 =
      (some (cxOne ℝ), (⟨(1 : ℝ)/2, "test", none⟩, none),
        seededState ⟨(1 : ℝ)/2, "test", none⟩ 0) ∧
    Dropout.backward (cxOne ℝ) ((⟨(1 : ℝ)/2, "test", none⟩ : DropoutParam ℝ), none) =
      some (cxOne ℝ)) :=
  ⟨fun _ _ => zero_lt_one,
    claim7_dropout_identity (cRand ℝ) (cxOne ℝ) (cxOne ℝ) ((1 : ℝ)/2) none 0 none
      (fun _ _ => zero_lt_one)⟩

/-- Counterexample to claim C9: invoked with the unrecognized mode string
`"other"`, `Dropout.forward` does not signal an error — it returns normally,
with the output slot `None` and no mask in the cache. -/
theorem claim9_counterexample :
    Dropout.forward (cRand ℝ) (cxOne ℝ) ⟨(1 : ℝ)/2, "other", none⟩ 0 =
      (none, (⟨(1 : ℝ)/2, "other", none⟩, none), 0) := rfl

/-- Claim C9 as amended: for every mode string that is neither `"train"`
nor `"test"`, `Dropout.forward` returns normally with `out = None` and
`mask = None` in the cache (after the optional seeding of the generator),
rather than raising an error. -/
theorem claim9_amended_invalid_mode {ι : Type*} (rand : ℕ → (ι → ℝ) × ℕ)
    (x : ι → ℝ) (p : ℝ) (sd : Option ℕ) (g : ℕ) (mode : String)
    (h1 : mode ≠ "train") (h2 : mode ≠ "test") :
    Dropout.forward rand x ⟨p, mode, sd⟩ g =
      (none, (⟨p, mode, sd⟩, none), seededState ⟨p, mode, sd⟩ g) := by
  simp only [Dropout.forward]
  rw [if_neg h1, if_neg h2]

/-- Witness for the amended claim C9 at the concrete mode string `"other"`. -/
theorem claim9_amended_invalid_mode_witness :
    ("other" : String) ≠ "train" ∧ ("other" : String) ≠ "test" ∧
    Dropout.forward (cRand ℝ) (cxOne ℝ) ⟨(1 : ℝ)/2, "other", some 7⟩ 0 =
      (none, (⟨(1 : ℝ)/2, "other", some 7⟩, none),
        seededState ⟨(1 : ℝ)/2, "other", some 7⟩ 0) :=
  ⟨by decide, by decide,
    claim9_amended_invalid_mode (cRand ℝ) (cxOne ℝ) ((1 : ℝ)/2) (some 7) 0 "other"
      (by decide) (by decide)⟩

/-- Claim C8 (confirmed): every call to `adam` increments the step counter
by exactly one, updates the moments to `beta1 * m + (1 - beta1) * dw` and
`beta2 * v + (1 - beta2) * dw^2`, divides them by `1 - beta1^t` and
`1 - beta2^t` for the incremented `t` (bias correction), and returns
`w - learning_rate * m_hat / (sqrt(v_hat) + epsilon)`. -/
theorem claim8_adam_bias_corrected_step {ι : Type*} (w dw : ι → ℝ)
    (c : AdamConfig ℝ ι) :
    (adam Real.sqrt w dw c).2.t = some (c.t.getD 0 + 1) ∧
    (adam Real.sqrt w dw c).2.m =
      some (fun i => c.beta1.getD 0.9 * (c.m.getD (fun _ => 0)) i +
        (1 - c.beta1.getD 0.9) * dw i) ∧
    (adam Real.sqrt w dw c).2.v =
      some (fun i => c.beta2.getD 0.999 * (c.v.getD (fun _ => 0)) i +
        (1 - c.beta2.getD 0.999) * dw i ^ 2) ∧
    (adam Real.sqrt w dw c).1 = fun i =>
      w i - c.learning_rate.getD 1e-3 *
        ((c.beta1.getD 0.9 * (c.m.getD (fun _ => 0)) i +
            (1 - c.beta1.getD 0.9) * dw i) /
          (1 - c.beta1.getD 0.9 ^ (c.t.getD 0 + 1)) /
          (Real.sqrt ((c.beta2.getD 0.999 * (c.v.getD (fun _ => 0)) i +
              (1 - c.beta2.getD 0.999) * dw i ^ 2) /
            (1 - c.beta2.getD 0.999 ^ (c.t.getD 0 + 1))) +
            c.epsilon.getD 1e-8)) :=
  ⟨rfl, rfl, rfl, rfl⟩

end FCN
